import Mathlib

set_option maxRecDepth 100000

/-!
Shallow embedding of the sip-parser repository (src/sip_parser/sip.py and
src/sip_parser/rtp.py) in Lean 4, together with theorems settling the frozen
claims about its specification.  Python strings are modelled as Lean `String`
(lists of characters); Python `None` becomes `Option`; raised exceptions become
`Except`/`Option` results.  All definitions are executable.
-/

/-- Characters stripped by Python `str.strip()` (ASCII whitespace set). -/
def isPyWS (c : Char) : Bool :=
  c = ' ' ∨ c = '\t' ∨ c = '\n' ∨ c = '\r' ∨ c = '\x0b' ∨ c = '\x0c'

def mkStr (l : List Char) : String := String.mk l

/-- Python `str.strip()`. -/
def pyStrip (s : String) : String :=
  mkStr (((s.data.dropWhile isPyWS).reverse.dropWhile isPyWS).reverse)

/-- Python `str.lower()` (inputs are ASCII). -/
def pyLower (s : String) : String := mkStr (s.data.map Char.toLower)

/-- Python `str.capitalize()`: first character upper-cased, rest lower-cased. -/
def pyCapitalize (s : String) : String :=
  match s.data with
  | [] => ""
  | c :: cs => mkStr (c.toUpper :: cs.map Char.toLower)

/-- First index of `c` in `l` (used for Python `str.find` and `str.index`). -/
def findChar : List Char → Char → Option Nat
  | [], _ => none
  | a :: rest, c => if a = c then some 0 else (findChar rest c).map (· + 1)

/-- Python `str.find(c, i)` (as an `Option` instead of the -1 sentinel). -/
def findFrom (l : List Char) (c : Char) (i : Nat) : Option Nat :=
  (findChar (l.drop i) c).map (· + i)

/-- Python slice `l[i:j]` (for `0 ≤ i ≤ j`). -/
def sliceL (l : List Char) (i j : Nat) : List Char := (l.take j).drop i

/-- First index at which `p` occurs as a contiguous substring of `l`
(Python `str.find(substring)`). -/
def findSubstr : List Char → List Char → Option Nat
  | [], p => if p = [] then some 0 else none
  | l@(_ :: rest), p =>
    if p.isPrefixOf l then some 0 else (findSubstr rest p).map (· + 1)

/-- Python `needle in haystack` substring test. -/
def pyInStr (needle hay : String) : Bool :=
  hay.data.tails.any (fun t => needle.data.isPrefixOf t)

/-- Python `str.partition(sep)` for a one-character separator: returns
(before, separator-or-empty, after). -/
def pyPartition : List Char → Char → List Char × List Char × List Char
  | [], _ => ([], [], [])
  | a :: rest, c =>
    if a = c then ([], [c], rest)
    else
      let (x, y, z) := pyPartition rest c
      (a :: x, y, z)

/-- Python `str.split(sep)` for a one-character separator. -/
def splitChar : List Char → Char → List (List Char)
  | [], _ => [[]]
  | a :: rest, c =>
    let r := splitChar rest c
    if a = c then [] :: r
    else
      match r with
      | h :: t => (a :: h) :: t
      | [] => [[a]]

/-- Python `str.split(sep, maxsplit)` for a one-character separator. -/
def splitCharLimit (l : List Char) (c : Char) : Nat → List (List Char)
  | 0 => [l]
  | n + 1 =>
    match findChar l c with
    | none => [l]
    | some i => l.take i :: splitCharLimit (l.drop (i + 1)) c n

/-- Decimal digits of a natural number (the formatting done by Python
`'%d' % n`); fuel-driven, depth `n+1` always suffices. -/
def digitChar (k : Nat) : Char :=
  match k with
  | 0 => '0' | 1 => '1' | 2 => '2' | 3 => '3' | 4 => '4'
  | 5 => '5' | 6 => '6' | 7 => '7' | 8 => '8' | _ => '9'

def natDigitsGo : Nat → Nat → List Char → List Char
  | 0, _, acc => acc
  | fuel + 1, n, acc =>
    if n < 10 then digitChar n :: acc
    else natDigitsGo fuel (n / 10) (digitChar (n % 10) :: acc)

def pyFormatD (n : Nat) : String := mkStr (natDigitsGo (n + 1) n [])

/-- Value of a non-empty all-digit character list. -/
def natFromDigits (l : List Char) : Nat :=
  l.foldl (fun a c => a * 10 + (c.toNat - 48)) 0

def digitsOnly (l : List Char) : Bool := l.all Char.isDigit

/-- Python `int(s)`: optional surrounding whitespace, optional sign, then a
non-empty run of decimal digits (digit-grouping underscores are not used by
any input considered here and are not modelled). `none` models the raised
`ValueError`. -/
def pyInt (s : String) : Option Int :=
  match (pyStrip s).data with
  | '-' :: ds => if ds ≠ [] ∧ digitsOnly ds then some (-(natFromDigits ds : Int)) else none
  | '+' :: ds => if ds ≠ [] ∧ digitsOnly ds then some (natFromDigits ds : Int) else none
  | ds => if ds ≠ [] ∧ digitsOnly ds then some (natFromDigits ds : Int) else none

/-- Insert into an insertion-ordered string-keyed map with Python `dict`
semantics: an existing key keeps its position and gets the new value, a new
key is appended. -/
def dictInsert {α : Type} (l : List (String × α)) (k : String) (v : α) :
    List (String × α) :=
  if l.any (fun p => p.1 = k) then
    l.map (fun p => if p.1 = k then (k, v) else p)
  else l ++ [(k, v)]

def dictLookup {α : Type} (l : List (String × α)) (k : String) : Option α :=
  (l.find? (fun p => p.1 = k)).map (fun p => p.2)

/-! ## Canonicalization (`_canon` in sip.py) -/

/-- The `_short` alias table: each one-letter short form is preceded by the
long header name it abbreviates. -/
def shortList : List String :=
  ["allow-events", "u", "call-id", "i", "contact", "m", "content-encoding", "e",
   "content-length", "l", "content-type", "c", "event", "o", "from", "f",
   "subject", "s", "supported", "k", "to", "t", "via", "v"]

/-- The `_exception` canonicalization table. -/
def exceptionPairs : List (String × String) :=
  [("call-id", "Call-ID"), ("cseq", "CSeq"),
   ("www-authenticate", "WWW-Authenticate"), ("x-real-ip", "X-Real-IP")]

/-- Capitalize each hyphen-separated segment and rejoin (the default branch
of `_canon`). -/
def canonCapitalize (s : String) : String :=
  String.intercalate "-" (((splitChar s.data '-').map mkStr).map pyCapitalize)

/-- `_canon`, fuel-driven.  The recursive call is only ever made on the long
name preceding a one-letter alias in `shortList`, and every such long name has
length greater than one, so the recursion depth never exceeds two; fuel 2 is
exact.  (In the source the one-letter guard uses `list.index`, which is found
at position ≥ 1 for every one-letter entry, so the `- 1` never wraps.) -/
def canonGo : Nat → String → String
  | 0, _ => ""
  | fuel + 1, s0 =>
    let s := pyLower s0
    let r1 :=
      if s.length = 1 ∧ shortList.contains s then
        canonGo fuel (shortList.getD (shortList.findIdx (· == s) - 1) "")
      else ""
    if r1 ≠ "" then r1
    else
      match dictLookup exceptionPairs s with
      | some e => if e ≠ "" then e else canonCapitalize s
      | none => canonCapitalize s

def canon (s : String) : String := canonGo 2 s

/-! ## Parameter tokenizer (`Header.parse_params` in sip.py) -/

/-- The scanning loop of `Header.parse_params`.  `index` strictly increases on
every iteration, so fuel `length + 1` always suffices.  A bare flag yields the
empty string as its (absent) value, exactly as the source does.  When the
source would raise `IndexError` reading `rest[sep1+1]` past the end, the
generator's surrounding `try` swallows the error and iteration stops. -/
def paramsGo (rest : List Char) (delim : Char) : Nat → Nat → List (String × String)
  | 0, _ => []
  | fuel + 1, index =>
    let length := rest.length
    if index < length then
      let sep1 : Int := match findFrom rest '=' index with
        | some n => (n : Int)
        | none => -1
      let sep2 : Int := match findFrom rest delim index with
        | some n => (n : Int)
        | none => (length : Int)
      if 0 ≤ sep1 ∧ sep1 < sep2 then
        let n := pyStrip (pyLower (mkStr (sliceL rest index sep1.toNat)))
        if sep1.toNat + 1 < length then
          let quoted := rest.getD (sep1.toNat + 1) ' ' = '"'
          let sep1n : Nat := if quoted then sep1.toNat + 1 else sep1.toNat
          let sep2n : Int :=
            if quoted then
              match findFrom rest '"' (sep1n + 1) with
              | some k => (k : Int)
              | none => -1
            else sep2
          if 0 ≤ sep2n then
            let v := pyStrip (mkStr (sliceL rest (sep1n + 1) sep2n.toNat))
            let tail := paramsGo rest delim fuel (sep2n.toNat + 1)
            if n ≠ "" then (n, v) :: tail else tail
          else
            let v := pyStrip (mkStr (rest.drop (sep1n + 1)))
            if n ≠ "" then [(n, v)] else []
        else []
      else if sep1 < 0 ∨ sep1 > sep2 then
        let n := pyStrip (pyLower (mkStr (sliceL rest index sep2.toNat)))
        let tail := paramsGo rest delim fuel (sep2.toNat + 1)
        if n ≠ "" then (n, "") :: tail else tail
      else []
    else []

/-- `Header.parse_params(rest, delimiter)` as the list of yielded pairs. -/
def parseParams (rest : String) (delim : Char) : List (String × String) :=
  paramsGo rest.data delim (rest.data.length + 1) 0

/-- Successive `self.__dict__[k] = v` assignments over the yielded pairs. -/
def foldParams (l : List (String × String)) : List (String × String) :=
  l.foldl (fun d p => dictInsert d p.1 p.2) []

/-! ## URI model (`URI` in sip.py)

The `_syntax` regular expression is embedded as a deterministic scanner.
Every character class of the pattern excludes the delimiter that follows it,
so greedy runs are forced; the only genuine backtracking points of the regex
are the two optional groups (userinfo, port), which are handled by trying the
with-group alternative first and falling back, exactly as the engine does.
`$` in Python also matches just before one final newline (`endOk`). -/

def isSchemeRest (c : Char) : Bool :=
  c.isAlphanum ∨ c = '+' ∨ c = '.' ∨ c = '-'

/-- The user character class of `_syntax`. -/
def isUserChar (c : Char) : Bool :=
  c.isAlphanum ∨ c = '-' ∨ c = '_' ∨ c = '.' ∨ c = '!' ∨ c = '~' ∨ c = '*' ∨
  c = '\'' ∨ c = '(' ∨ c = ')' ∨ c = '&' ∨ c = '=' ∨ c = '+' ∨ c = '$' ∨
  c = ',' ∨ c = ';' ∨ c = '?' ∨ c = '/' ∨ c = '%'

/-- The password class `[^:@;?]`. -/
def isPwChar (c : Char) : Bool := ¬ (c = ':' ∨ c = '@' ∨ c = ';' ∨ c = '?')

/-- The host class `[^;?:]`. -/
def isHostChar (c : Char) : Bool := ¬ (c = ';' ∨ c = '?' ∨ c = ':')

def takeRun (p : Char → Bool) (l : List Char) : List Char × List Char :=
  (l.takeWhile p, l.dropWhile p)

/-- Python `$`: end of input, or just before one final newline. -/
def endOk : List Char → Bool
  | [] => true
  | ['\n'] => true
  | _ => false

structure UriGroups where
  scheme : List Char
  user : Option (List Char)
  password : Option (List Char)
  host : List Char
  port : Option (List Char)
  params : Option (List Char)
  headers : Option (List Char)
deriving DecidableEq

/-- `(?:;(?P<params>[^?]*))? (?:[?](?P<headers>.*))? $`. -/
def matchParamsHeaders (l : List Char) :
    Option (Option (List Char) × Option (List Char)) :=
  let pr : Option (List Char) × List Char :=
    match l with
    | ';' :: rest => let (p, r) := takeRun (fun c => c ≠ '?') rest; (some p, r)
    | _ => (none, l)
  let hr : Option (List Char) × List Char :=
    match pr.2 with
    | '?' :: rest => let (h, r) := takeRun (fun c => c ≠ '\n') rest; (some h, r)
    | _ => (none, pr.2)
  if endOk hr.2 then some (pr.1, hr.1) else none

/-- `(?P<host>[^;?:]*)(?::(?P<port>[0-9]+))?` followed by params/headers/end.
The with-port alternative is tried first (greedy optional group). -/
def matchAfterAuthority (l : List Char) :
    Option (List Char × Option (List Char) × Option (List Char) × Option (List Char)) :=
  let (host, r1) := takeRun isHostChar l
  let withPort :=
    match r1 with
    | ':' :: r2 =>
      let (ds, r3) := takeRun Char.isDigit r2
      if ds = [] then none
      else
        (matchParamsHeaders r3).map
          (fun (ph : Option (List Char) × Option (List Char)) =>
            (host, some ds, ph.1, ph.2))
    | _ => none
  match withPort with
  | some res => some res
  | none =>
    (matchParamsHeaders r1).map
      (fun (ph : Option (List Char) × Option (List Char)) =>
        (host, none, ph.1, ph.2))

/-- `(?:(?:(?P<user>...+)(?::(?P<password>[^:@;?]+))?)@)?`: user run, optional
password, then a literal `@`.  The with-password alternative is tried first;
when it finds an `@` the without-password alternative necessarily fails, so no
further interleaving is needed. -/
def matchUserinfo (l : List Char) :
    Option (List Char × Option (List Char) × List Char) :=
  let (u, r1) := takeRun isUserChar l
  if u = [] then none
  else
    let withPw :=
      match r1 with
      | ':' :: r2 =>
        let (pw, r3) := takeRun isPwChar r2
        if pw = [] then none
        else
          match r3 with
          | '@' :: r4 => some (u, some pw, r4)
          | _ => none
      | _ => none
    match withPw with
    | some res => some res
    | none =>
      match r1 with
      | '@' :: r2 => some (u, none, r2)
      | _ => none

/-- The whole `_syntax` match.  If the authority part fails after a successful
userinfo match the engine backtracks and retries without the userinfo group;
the fallback branch reproduces that. -/
def uriMatchMain (l : List Char) : Option UriGroups :=
  match l with
  | [] => none
  | c :: rest =>
    if c.isAlpha then
      let (srest, r1) := takeRun isSchemeRest rest
      match r1 with
      | ':' :: r2 =>
        let scheme := c :: srest
        let withUser :=
          match matchUserinfo r2 with
          | some (u, pw, r3) =>
            (matchAfterAuthority r3).map
              (fun (g : List Char × Option (List Char) × Option (List Char) × Option (List Char)) =>
                UriGroups.mk scheme (some u) pw g.1 g.2.1 g.2.2.1 g.2.2.2)
          | none => none
        match withUser with
        | some g => some g
        | none =>
          (matchAfterAuthority r2).map
            (fun (g : List Char × Option (List Char) × Option (List Char) × Option (List Char)) =>
              UriGroups.mk scheme none none g.1 g.2.1 g.2.2.1 g.2.2.2)
      | _ => none
    else none

/-- `_syntax_urn`: `^urn:(?P<host>[^;?>]+)$` (the host class includes the
newline character, so the greedy run consumes the whole remainder; the match
succeeds exactly when that remainder is non-empty and free of `;?>`). -/
def uriMatchUrn (l : List Char) : Option (List Char) :=
  match l with
  | 'u' :: 'r' :: 'n' :: ':' :: rest =>
    if rest ≠ [] ∧ rest.all (fun c => ¬ (c = ';' ∨ c = '?' ∨ c = '>')) then
      some rest
    else none
  | _ => none

structure URI where
  scheme : Option String
  user : Option String
  password : Option String
  host : Option String
  port : Option Int
  param : List (String × Option String)
  header : List String
deriving DecidableEq

/-- The post-match fixups of `URI.__init__`: the `tel:` user/host swap, the
`port and int(port) or None` conversion (a literal `0` port collapses to
`None`), the parameter dict, and the `&`-split header list. -/
def uriFromGroups (g : UriGroups) : URI :=
  let scheme := some (mkStr g.scheme)
  let user0 := g.user.map mkStr
  let host0 : Option String := some (mkStr g.host)
  let uh : Option String × Option String :=
    if scheme = some "tel" ∧ user0 = none then (host0, none) else (user0, host0)
  let port : Option Int :=
    match g.port with
    | none => none
    | some ds =>
      let n := natFromDigits ds
      if n = 0 then none else some (n : Int)
  let param : List (String × Option String) :=
    match g.params with
    | none => []
    | some ps =>
      if ps = [] then []
      else
        (splitChar ps ';').foldl
          (fun d seg =>
            let t := pyPartition seg '='
            dictInsert d (mkStr t.1)
              (if t.2.2 ≠ [] then some (mkStr t.2.2) else none)) []
  let header : List String :=
    match g.headers with
    | none => []
    | some hs => if hs = [] then [] else (splitChar hs '&').map mkStr
  URI.mk scheme uh.1 (g.password.map mkStr) uh.2 port param header

/-- `URI(value)`; `Except.error` models the raised `ValueError`. -/
def uriParse (value : String) : Except String URI :=
  if value = "" then .ok (URI.mk none none none none none [] [])
  else
    match uriMatchMain value.data with
    | some g => .ok (uriFromGroups g)
    | none =>
      match uriMatchUrn value.data with
      | some h => .ok (URI.mk (some "urn") none none (some (mkStr h)) none [] [])
      | none => .error ("Invalid URI(" ++ value ++ ")")

def optStrTruthy (o : Option String) : Bool :=
  match o with
  | some s => s ≠ ""
  | none => false

def optIntTruthy (o : Option Int) : Bool :=
  match o with
  | some n => n ≠ 0
  | none => false

/-- Insertion into a list sorted by key (Python string order is code-point
lexicographic, identical to Lean's `String` order). -/
def insertParamSorted (p : String × Option String) :
    List (String × Option String) → List (String × Option String)
  | [] => [p]
  | q :: qs => if p.1 < q.1 then p :: q :: qs else q :: insertParamSorted p qs

def sortParams (l : List (String × Option String)) :
    List (String × Option String) :=
  l.foldl (fun acc p => insertParamSorted p acc) []

/-- `URI.__repr__`. -/
def uriRepr (u : URI) : String :=
  let uh : Option String × Option String :=
    if u.scheme ≠ some "tel" then (u.user, u.host) else (none, u.user)
  let user := uh.1
  let host := uh.2
  if optStrTruthy u.scheme ∧ optStrTruthy host then
    u.scheme.getD "" ++ ":" ++
    (if optStrTruthy user then
       user.getD "" ++
       (if optStrTruthy u.password then ":" ++ u.password.getD "" else "") ++ "@"
     else "") ++
    host.getD "" ++
    (if optIntTruthy u.port then ":" ++ toString (u.port.getD 0) else "") ++
    (if u.param.length > 0 then
       ";" ++ String.intercalate ";"
         ((sortParams u.param).map (fun p =>
            match p.2 with
            | some v => p.1 ++ "=" ++ v
            | none => p.1))
     else "") ++
    (if u.header.length > 0 then "?" ++ String.intercalate "&" u.header else "")
  else ""

/-- `URI.__cmp__`: comparison of the lower-cased serialized strings. -/
def uriCmp (a b : URI) : Int :=
  if pyLower (uriRepr b) < pyLower (uriRepr a) then 1
  else if pyLower (uriRepr a) < pyLower (uriRepr b) then -1
  else 0

/-- Stand-in for CPython's string hash: any deterministic function of the
string has the property relevant here (equal strings hash equal). -/
def strHash (s : String) : Nat := s.data.foldl (fun h c => h * 31 + c.toNat) 7

/-- `URI.__hash__`: hash of the lower-cased serialized string. -/
def uriHash (u : URI) : Nat := strHash (pyLower (uriRepr u))

/-! ## Address model (`Address` in sip.py)

The three grammar alternatives of `Address._syntax`, tried in order.  Each
character class excludes its terminator, so the greedy runs are forced; the
only backtracking point is the `[ \t]*` prefix of the third alternative, which
can cede one whitespace character to the `[^;]+` uri group. -/

structure Address where
  displayName : Option String
  uri : Option URI
  wildcard : Bool
  mustQuote : Bool
deriving DecidableEq

def isAddrNameChar (c : Char) : Bool :=
  c.isAlphanum ∨ c = '.' ∨ c = '_' ∨ c = '+' ∨ c = '~' ∨ c = ' ' ∨ c = '\t' ∨ c = '-'

/-- `^(?P<name>[a-zA-Z0-9._+~ \t-]*)<(?P<uri>[^>]+)>`; the returned `Nat` is
`m.end()`. -/
def addrAlt1 (l : List Char) : Option (List Char × List Char × Nat) :=
  let (nm, r1) := takeRun isAddrNameChar l
  match r1 with
  | '<' :: r2 =>
    let (u, r3) := takeRun (fun c => c ≠ '>') r2
    if u = [] then none
    else
      match r3 with
      | '>' :: _ => some (nm, u, nm.length + 1 + u.length + 1)
      | _ => none
  | _ => none

/-- `^(?:"(?P<name>[^"]+)")[ \t]*<(?P<uri>[^>]+)>`. -/
def addrAlt2 (l : List Char) : Option (List Char × List Char × Nat) :=
  match l with
  | '"' :: r1 =>
    let (nm, r2) := takeRun (fun c => c ≠ '"') r1
    if nm = [] then none
    else
      match r2 with
      | '"' :: r3 =>
        let (ws, r4) := takeRun (fun c => c = ' ' ∨ c = '\t') r3
        match r4 with
        | '<' :: r5 =>
          let (u, r6) := takeRun (fun c => c ≠ '>') r5
          if u = [] then none
          else
            match r6 with
            | '>' :: _ =>
              some (nm, u, 1 + nm.length + 1 + ws.length + 1 + u.length + 1)
            | _ => none
        | _ => none
      | _ => none
  | _ => none

/-- `^[ \t]*(?P<name>)(?P<uri>[^;]+)`.  When the character after the maximal
whitespace run is `;` (or the input is all whitespace), the greedy `[ \t]*`
cedes its last character to the `[^;]+` group, which then matches exactly that
one whitespace character. -/
def addrAlt3 (l : List Char) : Option (List Char × List Char × Nat) :=
  let (ws, r1) := takeRun (fun c => c = ' ' ∨ c = '\t') l
  match r1 with
  | c :: _ =>
    if c ≠ ';' then
      let (u, _) := takeRun (fun d => d ≠ ';') r1
      some ([], u, ws.length + u.length)
    else
      match ws.getLast? with
      | some c2 => some ([], [c2], ws.length)
      | none => none
  | [] =>
    match ws.getLast? with
    | some c2 => some ([], [c2], ws.length)
    | none => none

/-- `Address.parse` applied to an existing address object (`Header._parse`
builds the object first and sets `mustQuote` before parsing).  Returns the
updated address and `m.end()`; `none` as the count models Python returning
`None` when nothing matches (the caller's slice `value[None:]` is then the
whole string).  An invalid embedded URI raises, thus `Except.error`. -/
def addressParseInto (a : Address) (value : String) :
    Except String (Address × Option Nat) :=
  match value.data with
  | '*' :: _ => .ok ({ a with wildcard := true }, some 1)
  | l =>
    match addrAlt1 l <|> addrAlt2 l <|> addrAlt3 l with
    | some (nm, u, e) =>
      match uriParse (pyStrip (mkStr u)) with
      | .error er => .error er
      | .ok uri =>
        .ok ({ a with displayName := some (pyStrip (mkStr nm)), uri := some uri },
             some e)
    | none => .ok (a, none)

/-! ## Header model (`Header` in sip.py) -/

/-- The `_address` header-class table. -/
def addressHeaders : List String :=
  ["contact", "from", "record-route", "refer-to", "referred-by", "route", "to"]

/-- The `_comma` header-class table. -/
def commaHeaders : List String :=
  ["allow", "authorization", "proxy-authenticate", "proxy-authorization",
   "www-authenticate"]

/-- The `_unstructured` header-class table. -/
def unstructuredHeaders : List String :=
  ["call-id", "cseq", "date", "expires", "max-forwards", "organization",
   "server", "subject", "timestamp", "user-agent"]

/-- A header's primary value: a plain string or (for address-class headers) a
parsed `Address`. -/
inductive HeaderVal where
  | vs : String → HeaderVal
  | va : Address → HeaderVal
deriving DecidableEq

/-- One header occurrence.  In the source the extra parameters, the CSeq
`number`/`method` fields and the comma-class `authMethod` all live in the same
attribute dictionary as `name` and `value`; they are split into fields here.
(A parameter literally named `name` or `value` would shadow those attributes
in Python; no input considered here contains one.) -/
structure Header where
  name : Option String
  value : HeaderVal
  params : List (String × String)
  number : Option Int
  method : Option String
  authMethod : Option String
deriving DecidableEq

/-- `Header(value, name)`: canonicalize the name, dispatch on the header
class (`Header._parse`), collect trailing parameters.  `Except.error` models
the exceptions the constructor can raise (invalid embedded URI, non-integer
CSeq number). -/
def headerMk (value : String) (name : String) : Except String Header :=
  let nm : Option String := if name = "" then none else some (canon (pyStrip name))
  let v0 := pyStrip value
  let disp : Option String := nm.map pyLower
  let inClass := fun (t : List String) =>
    match disp with
    | some d => t.contains d
    | none => false
  let step1 : Except String (HeaderVal × List (String × String)) :=
    if inClass addressHeaders then
      match addressParseInto (Address.mk none none false true) v0 with
      | .error e => .error e
      | .ok (a, cnt) =>
        let rest := match cnt with
          | some c => mkStr (v0.data.drop c)
          | none => v0
        .ok (.va a, foldParams (parseParams rest ';'))
    else if inClass commaHeaders ∨ inClass unstructuredHeaders then
      .ok (.vs v0, [])
    else
      let t := pyPartition v0.data ';'
      .ok (.vs (mkStr t.1),
           if t.2.2 ≠ [] then foldParams (parseParams (mkStr t.2.2) ';') else [])
  match step1 with
  | .error e => .error e
  | .ok (hv, ps) =>
    if inClass commaHeaders then
      let t := pyPartition (pyStrip v0).data ' '
      let ps2 := if t.2.2 ≠ [] then
          (parseParams (mkStr t.2.2) ',').foldl (fun d p => dictInsert d p.1 p.2) ps
        else ps
      .ok (Header.mk nm hv ps2 none none (some (mkStr t.1)))
    else if disp = some "cseq" then
      let t := pyPartition v0.data ' '
      let n := pyStrip (mkStr t.1)
      let meth := pyStrip (mkStr t.2.2)
      match pyInt n with
      | none => .error "ValueError: invalid literal for int"
      | some num =>
        .ok (Header.mk nm (.vs (n ++ " " ++ meth)) ps (some num) (some meth) none)
    else .ok (Header.mk nm hv ps none none none)

/-- `header[key]` (`Header.__getitem__`): lower-cased lookup among the extra
parameters. -/
def headerGet (h : Header) (k : String) : Option String :=
  dictLookup h.params (pyLower k)

/-- `Header.via_uri`: derived contact URI of a Via header.  Raises
(`Except.error`) when invoked on a non-Via header; the memoization cache of
the source has no observable effect on a freshly parsed header and is not
modelled. -/
def viaUri (h : Header) : Except String URI :=
  if h.name ≠ some "Via" then .error "viaUri available only on Via header"
  else
    match h.value with
    | .va _ => .error "AttributeError: Address has no split"
    | .vs v =>
      match splitChar v.data ' ' with
      | [proto, addr] =>
        match (splitChar proto '/').get? 2 with
        | none => .error "IndexError: transport missing"
        | some tpart =>
          let viaType := pyLower (mkStr tpart)
          match uriParse ("sip:" ++ mkStr addr ++ ";transport=" ++ viaType) with
          | .error e => .error e
          | .ok u0 =>
            let u1 := if u0.port = none then { u0 with port := some 5060 } else u0
            let u2 :=
              match headerGet h "rport" with
              | some rp =>
                match pyInt rp with
                | some n => { u1 with port := some n }
                | none => u1
              | none => u1
            let u3 :=
              if ¬ (viaType = "tcp" ∨ viaType = "sctp" ∨ viaType = "tls") then
                match headerGet h "maddr" with
                | some m => { u2 with host := some m }
                | none =>
                  match headerGet h "received" with
                  | some r => { u2 with host := some r }
                  | none => u2
              else u2
            .ok u3
      | _ => .error "ValueError: unpack"

/-! ## Message model (`Message` in sip.py) -/

/-- `Message._single`: the singleton-class table as written in the source —
note the entries are lower-case. -/
def singleList : List String :=
  ["call-id", "content-disposition", "content-length", "content-type", "cseq",
   "date", "expires", "event", "max-forwards", "organization", "refer-to",
   "referred-by", "server", "session-expires", "subject", "timestamp", "to",
   "user-agent"]

/-- A stored header entry: one `Header` or a list of them, mirroring the
value-shape polymorphism of the source. -/
inductive HVal where
  | one : Header → HVal
  | many : List Header → HVal
deriving DecidableEq

structure Msg where
  method : Option String
  uri : Option URI
  response : Option Int
  responsetext : Option String
  protocol : Option String
  body : Option String
  headers : List (String × HVal)
deriving DecidableEq

inductive PErr where
  | noFirstLine
  | indexError
  | unpackError
  | invalidURI : String → PErr
  | badContentLength
  | attributeError
  | contentLengthMismatch : Int → Nat → PErr
  | missingHeader : String → PErr
deriving DecidableEq

/-- The six non-header attributes `Message.__init__` places in the instance
dictionary; `__contains__` sees them alongside the header keys. -/
def msgReserved : List String :=
  ["method", "uri", "response", "responsetext", "protocol", "_body"]

/-- `name in message` (`Message.__contains__`): lower-cased key present among
the headers or the fixed attributes. -/
def msgContains (m : Msg) (name : String) : Bool :=
  let k := pyLower name
  (m.headers.any (fun p => p.1 = k)) || msgReserved.contains k

def msgLookup (m : Msg) (name : String) : Option HVal :=
  dictLookup m.headers (pyLower name)

def msgSet (m : Msg) (name : String) (v : HVal) : Msg :=
  { m with headers := dictInsert m.headers (pyLower name) v }

/-- The `Message.body` setter: store the body and overwrite the
Content-Length header with `'%d' % (value and len(value) or 0)`.  (That
header construction cannot fail: a digit string is parsed by the standard
class with no parameters.) -/
def msgSetBody (m : Msg) (v : Option String) : Msg :=
  let n : Nat := match v with
    | none => 0
    | some s => if s = "" then 0 else s.length
  let hdr : Header :=
    match headerMk (pyFormatD n) "Content-Length" with
    | .ok h => h
    | .error _ => Header.mk none (.vs "") [] none none none
  msgSet { m with body := v } "Content-Length" (.one hdr)

/-- `Header.create_headers`: split a raw line at the first colon, strip both
parts, build one `Header` per comma segment (comma-class names excepted).  A
failure anywhere makes the whole line fail (the caller skips it). -/
def createHeaders (line : String) : Except String (String × List Header) :=
  match findChar line.data ':' with
  | none => .error "ValueError: no colon"
  | some i =>
    let name := pyStrip (mkStr (line.data.take i))
    let value := pyStrip (mkStr (line.data.drop (i + 1)))
    let segs : List (List Char) :=
      if commaHeaders.contains (pyLower name) then [value.data]
      else splitChar value.data ','
    match segs.mapM (fun x => headerMk (mkStr x) name) with
    | .error e => .error e
    | .ok hs => .ok (canon name, hs)

/-- Steps 5–6 of `Message._parse` for one unfolded header line: build the
headers, store under the canonical name.  The singleton test
`name not in Message._single` compares the *canonical* name against the
*lower-case* table entries and therefore never fires; the source text is
reproduced faithfully here.  (When the canonical name collides with one of
the fixed non-header attributes the source would wrap that attribute's value
in the list; no header line considered here does, and the branch stores just
the parsed headers.) -/
def addHeaderLine (m : Msg) (h : List Char) : Msg :=
  match createHeaders (mkStr h) with
  | .error _ => m
  | .ok (name, values) =>
    if msgContains m name = false then
      msgSet m name (match values with
        | [v] => .one v
        | vs => .many vs)
    else if singleList.contains name = false then
      match msgLookup m name with
      | some (.one h0) => msgSet m name (.many (h0 :: values))
      | some (.many l) => msgSet m name (.many (l ++ values))
      | none => msgSet m name (.many values)
    else m

/-- Step 4 of `Message._parse`: strip a trailing `\r` from each line and fold
space/tab-continued lines onto their predecessor (a continuation with no
predecessor is dropped); an empty line is appended as an empty entry. -/
def unfoldHeaderLines (ls : List (List Char)) : List (List Char) :=
  ls.foldl
    (fun acc h0 =>
      let h := match h0.getLast? with
        | some c => if c = '\r' then h0.dropLast else h0
        | none => h0
      match h with
      | c :: _ =>
        if c = ' ' ∨ c = '\t' then
          match acc.getLast? with
          | some lastLine => acc.dropLast ++ [lastLine ++ h]
          | none => acc
        else acc ++ [h]
      | [] => acc ++ [h]) []

/-- `int(self['Content-Length'].value)` guarded by the containment test (0
when absent).  A list stored under the name has no `.value` attribute and a
non-integer value fails `int()`; both exceptions would propagate out of
`Message._parse`. -/
def declaredCL (m : Msg) : Except PErr Int :=
  match msgLookup m "Content-Length" with
  | none => .ok 0
  | some (.one h) =>
    match h.value with
    | .vs s =>
      match pyInt s with
      | some n => .ok n
      | none => .error .badContentLength
    | .va _ => .error .badContentLength
  | some (.many _) => .error .attributeError

/-- The mandatory-header loop of `Message._parse`: the first of
To, From, CSeq, Call-ID (in that order) that is absent. -/
def firstMissing (m : Msg) : Option String :=
  match msgContains m "To" with
  | false => some "To"
  | true =>
    match msgContains m "From" with
    | false => some "From"
    | true =>
      match msgContains m "CSeq" with
      | false => some "CSeq"
      | true =>
        match msgContains m "Call-ID" with
        | false => some "Call-ID"
        | true => none

/-- Step 8 of `Message._parse`: the declared Content-Length is read first,
then a non-empty body is assigned through the body setter, then the
length check and the mandatory-header check run in that order. -/
def msgValidate (m : Msg) (body : List Char) : Except PErr Msg :=
  match declaredCL m with
  | .error e => .error e
  | .ok n =>
    let m1 := if body ≠ [] then msgSetBody m (some (mkStr body)) else m
    if m1.body ≠ none ∧ n ≠ (body.length : Int) then
      .error (.contentLengthMismatch n body.length)
    else
      match firstMissing m1 with
      | some h => .error (.missingHeader h)
      | none => .ok m1

/-- Steps 1–7 of `Message._parse`: split off the body at the earlier of
`\r\n\r\n` and `\n\n`, take the start line, parse it as response or request,
unfold and store the header lines. -/
def msgParseStart (value : String) : Except PErr (Msg × List Char) :=
  let l := value.data
  let iC0 := findSubstr l ['\r', '\n', '\r', '\n']
  let iL0 := findSubstr l ['\n', '\n']
  let pref : Option Nat × Option Nat :=
    match iC0, iL0 with
    | some a, some b => if a < b then (some a, none) else (none, some b)
    | _, _ => (iC0, iL0)
  let fb : List Char × List Char :=
    match pref.1 with
    | some i => (l.take i, l.drop (i + 4))
    | none =>
      match pref.2 with
      | some i => (l.take i, l.drop (i + 2))
      | none => (l, [])
  match findChar fb.1 '\n' with
  | none => .error .noFirstLine
  | some i =>
    let firstLine0 := fb.1.take i
    let headerChars := fb.1.drop (i + 1)
    match firstLine0.getLast? with
    | none => .error .indexError
    | some lastc =>
      let firstLine := if lastc = '\r' then firstLine0.dropLast else firstLine0
      match splitCharLimit firstLine ' ' 2 with
      | [a, b, c] =>
        let m0 := Msg.mk none none none none none none []
        let start : Except PErr Msg :=
          match pyInt (mkStr b) with
          | some nb =>
            .ok { m0 with response := some nb, responsetext := some (mkStr c),
                          protocol := some (mkStr a) }
          | none =>
            match uriParse (mkStr b) with
            | .ok u =>
              .ok { m0 with method := some (mkStr a), uri := some u,
                            protocol := some (mkStr c) }
            | .error _ => .error (.invalidURI (mkStr b))
        match start with
        | .error e => .error e
        | .ok m1 =>
          let hlist := unfoldHeaderLines (splitChar headerChars '\n')
          .ok (hlist.foldl addHeaderLine m1, fb.2)
      | _ => .error .unpackError

/-- `Message(value)`. -/
def msgParse (value : String) : Except PErr Msg :=
  match msgParseStart value with
  | .error e => .error e
  | .ok (m, body) => msgValidate m body

/-- Number of stored occurrences of a header name. -/
def msgHeaderCount (m : Msg) (name : String) : Nat :=
  match msgLookup m name with
  | none => 0
  | some (.one _) => 1
  | some (.many l) => l.length

/-- The stored primary value strings of a header name, in storage order. -/
def msgHeaderValues (m : Msg) (name : String) : List String :=
  let vals := match msgLookup m name with
    | none => []
    | some (.one h) => [h]
    | some (.many l) => l
  vals.map (fun h =>
    match h.value with
    | .vs s => s
    | .va _ => "")

/-- The string stored in the Content-Length header, when a single one with a
plain value is present. -/
def msgCLString (m : Msg) : Option String :=
  match msgLookup m "Content-Length" with
  | some (.one h) =>
    match h.value with
    | .vs s => some s
    | .va _ => none
  | _ => none

/-! ## SDP model (`rtp.py`) -/

structure Originator where
  username : String
  sessionid : Int
  version : Int
  nettype : String
  addrtype : String
  address : String
deriving DecidableEq

/-- `Originator(value)`: exactly six space-separated fields, two of them
integers; anything else raises. -/
def origParse (value : String) : Except String Originator :=
  match splitChar value.data ' ' with
  | [u, sid, ver, nt, aty, ad] =>
    match pyInt (mkStr sid), pyInt (mkStr ver) with
    | some si, some ve =>
      .ok (Originator.mk (mkStr u) si ve (mkStr nt) (mkStr aty) (mkStr ad))
    | _, _ => .error "ValueError: int"
  | _ => .error "ValueError: unpack"

def origRepr (o : Originator) : String :=
  o.username ++ " " ++ toString o.sessionid ++ " " ++ toString o.version ++
  " " ++ o.nettype ++ " " ++ o.addrtype ++ " " ++ o.address

structure Connection where
  nettype : String
  addrtype : String
  address : String
  ttl : Option Int
  count : Option Int
deriving DecidableEq

/-- `Connection(value)`: three space-separated fields, the last `/`-split
into address and optional ttl/count (extra `/`-segments beyond the third are
ignored, as in the source's indexing). -/
def connParse (value : String) : Except String Connection :=
  match splitChar value.data ' ' with
  | [nt, aty, rest] =>
    match splitChar rest '/' with
    | [ad] => .ok (Connection.mk (mkStr nt) (mkStr aty) (mkStr ad) none none)
    | [ad, t] =>
      match pyInt (mkStr t) with
      | some tv => .ok (Connection.mk (mkStr nt) (mkStr aty) (mkStr ad) (some tv) none)
      | none => .error "ValueError: int"
    | ad :: t :: cn :: _ =>
      match pyInt (mkStr t), pyInt (mkStr cn) with
      | some tv, some cv =>
        .ok (Connection.mk (mkStr nt) (mkStr aty) (mkStr ad) (some tv) (some cv))
      | _, _ => .error "ValueError: int"
    | [] => .error "ValueError: unpack"
  | _ => .error "ValueError: unpack"

/-- `Connection.__repr__` (a ttl or count of 0 is falsy and is omitted, as in
the source's truthiness tests). -/
def connRepr (c : Connection) : String :=
  c.nettype ++ " " ++ c.addrtype ++ " " ++ c.address ++
  (if optIntTruthy c.ttl then "/" ++ toString (c.ttl.getD 0) else "") ++
  (if optIntTruthy c.count then "/" ++ toString (c.count.getD 0) else "")

/-- A value stored in a `Media` section's attribute dictionary: a plain
string, a parsed `o=`/`c=` object, or the ordered accumulation list of a
repeatable key (which only ever holds plain strings during parsing). -/
inductive MVal where
  | str : String → MVal
  | orig : Originator → MVal
  | conn : Connection → MVal
  | strs : List String → MVal
deriving DecidableEq

structure MediaObj where
  media : String
  port : Int
  proto : String
  fmt : List String
  dict : List (String × MVal)
  attrList : List String
deriving DecidableEq

/-- `Media(value, media_attributes=...)`: `value.split(' ', 3)` must unpack
into exactly four parts; the port must be an integer. -/
def mediaParse (value : String) (attrs : List String) : Except String MediaObj :=
  match splitCharLimit value.data ' ' 3 with
  | [md, pt, pr, rest] =>
    match pyInt (mkStr pt) with
    | some p =>
      .ok (MediaObj.mk (mkStr md) p (mkStr pr) ((splitChar rest ' ').map mkStr) [] attrs)
    | none => .error "ValueError: int"
  | _ => .error "ValueError: unpack"

/-- `SDP.multiple` membership: a Python substring test against `'tramb'`
(so the empty key and multi-letter infixes such as `'am'` count too). -/
def isMultipleKey (k : String) : Bool := pyInStr k "tramb"

/-- A value stored at session level: additionally the ordered media list
under the key `m`. -/
inductive SVal where
  | str : String → SVal
  | orig : Originator → SVal
  | conn : Connection → SVal
  | strs : List String → SVal
  | medias : List MediaObj → SVal
deriving DecidableEq

structure SDPObj where
  allowed : List String
  dict : List (String × SVal)
deriving DecidableEq

/-- `obj[k] = (k in SDP.multiple and ((k in obj) and (obj[k] + [v]) or [v])) or v`
for a media-section target.  For a repeatable key the value is always a plain
string (the transformed `o`/`c` keys are not infixes of `'tramb'` and `m` is
handled before this point); concatenating onto a non-list raises. -/
def mediaAttach (d : List (String × MVal)) (k : String) (v : MVal) :
    Except String (List (String × MVal)) :=
  if isMultipleKey k then
    match v with
    | .str s =>
      match dictLookup d k with
      | some (.strs l) => .ok (dictInsert d k (.strs (l ++ [s])))
      | some _ => .error "TypeError: concat"
      | none => .ok (dictInsert d k (.strs [s]))
    | _ => .error "TypeError: concat"
  else .ok (dictInsert d k v)

/-- The transformed value of a non-`m` line. -/
def lineVal (k : String) (v : String) : Except String SVal :=
  if k = "o" then (origParse v).map .orig
  else if k = "c" then (connParse v).map .conn
  else .ok (.str v)

def mvalOfSval : SVal → Except String MVal
  | .str s => .ok (.str s)
  | .orig o => .ok (.orig o)
  | .conn c => .ok (.conn c)
  | .strs l => .ok (.strs l)
  | .medias _ => .error "unreachable: no media value reaches an attach"

/-- Session-level attach, same shape as `mediaAttach`. -/
def sessionAttach (d : List (String × SVal)) (k : String) (v : SVal) :
    Except String (List (String × SVal)) :=
  if isMultipleKey k then
    match v with
    | .str s =>
      match dictLookup d k with
      | some (.strs l) => .ok (dictInsert d k (.strs (l ++ [s])))
      | some _ => .error "TypeError: concat"
      | none => .ok (dictInsert d k (.strs [s]))
    | _ => .error "TypeError: concat"
  else .ok (dictInsert d k v)

/-- One line of `SDP._parse`: partition at the first `=`, transform `o`, `c`,
`m` values, append `m=` lines to the media list, attach anything else to the
most recently started media section if one exists, else to the session. -/
def sdpLine (sd : SDPObj) (line : List Char) : Except String SDPObj :=
  let t := pyPartition line '='
  let k := mkStr t.1
  let v := mkStr t.2.2
  if k = "m" then
    match mediaParse v sd.allowed with
    | .error e => .error e
    | .ok mo =>
      match dictLookup sd.dict "m" with
      | some (.medias l) =>
        .ok { sd with dict := dictInsert sd.dict "m" (.medias (l ++ [mo])) }
      | some _ => .error "AttributeError: append"
      | none => .ok { sd with dict := dictInsert sd.dict "m" (.medias [mo]) }
  else
    match lineVal k v with
    | .error e => .error e
    | .ok sv =>
      match dictLookup sd.dict "m" with
      | some (.medias (m0 :: ms)) =>
        match mvalOfSval sv with
        | .error e => .error e
        | .ok mv =>
          let lastM := (m0 :: ms).getLast (by simp)
          match mediaAttach lastM.dict k mv with
          | .error e => .error e
          | .ok d2 =>
            let newList := (m0 :: ms).dropLast ++ [{ lastM with dict := d2 }]
            .ok { sd with dict := dictInsert sd.dict "m" (.medias newList) }
      | _ =>
        match sessionAttach sd.dict k sv with
        | .error e => .error e
        | .ok d2 => .ok { sd with dict := d2 }

/-- `'\r\n'` normalized to `'\n'` left to right (Python `str.replace`). -/
def normNewlines : List Char → List Char
  | '\r' :: '\n' :: rest => '\n' :: normNewlines rest
  | c :: rest => c :: normNewlines rest
  | [] => []

/-- `SDP(value, allowed_attributes)` (`None` and the empty set behave
identically in the source's truthiness tests, so the whitelist is a plain
list with `[]` for absent). -/
def sdpParse (value : String) (allowed : List String) : Except String SDPObj :=
  (splitChar (normNewlines value.data) '\n').foldlM sdpLine (SDPObj.mk allowed [])

/-- Python `str(...)` of a list of strings (only reachable if a repeatable
value were emitted through a single-value path, which the parser never
produces). -/
def pyListReprStr (l : List String) : String :=
  "[" ++ String.intercalate ", " (l.map (fun s => "'" ++ s ++ "'")) ++ "]"

/-- `str(v)` for a media-dictionary value. -/
def mvalStr : MVal → String
  | .str s => s
  | .orig o => origRepr o
  | .conn c => connRepr c
  | .strs l => pyListReprStr l

/-- `for v in self[k]` over a repeatable media value.  The parser stores only
string lists under repeatable keys; iterating a plain string in Python walks
its characters, and iterating the `o=`/`c=` objects raises (modelled as no
elements). -/
def mvalElems : MVal → List String
  | .strs l => l
  | .str s => s.data.map (fun c => String.mk [c])
  | .orig _ => []
  | .conn _ => []

/-- `v.split(':', 1)[0]` — the attribute name checked against the whitelist. -/
def attrName (v : String) : String :=
  mkStr ((splitCharLimit v.data ':' 1).headD [])

/-- `Media.__assemble_line`: each nested line is emitted with a leading
`\r\n`; an `a=` line is filtered by the whitelist when one is configured
(Python treats `None` and an empty set identically here). -/
def mediaAssemble (attrList : List String) (k : String) (v : String) : String :=
  if k = "a" ∧ attrList ≠ [] then
    if attrList.contains (attrName v) then "\r\n" ++ k ++ "=" ++ v else ""
  else "\r\n" ++ k ++ "=" ++ v

/-- `Media.__repr__`: the `m=` line value followed by the nested fields in
the fixed order `i c b k a` (of which `b` and `a` are repeatable). -/
def mediaRepr (m : MediaObj) : String :=
  let base := m.media ++ " " ++ toString m.port ++ " " ++ m.proto ++ " " ++
    String.intercalate " " m.fmt
  ['i', 'c', 'b', 'k', 'a'].foldl
    (fun acc k =>
      let ks := String.mk [k]
      match dictLookup m.dict ks with
      | none => acc
      | some v =>
        if isMultipleKey ks = false then acc ++ mediaAssemble m.attrList ks (mvalStr v)
        else acc ++ String.join ((mvalElems v).map (mediaAssemble m.attrList ks)))
    base

/-- `str(v)` for a session-level value (`m` is repeatable, so the media-list
case never reaches this single-value path). -/
def svalStr : SVal → String
  | .str s => s
  | .orig o => origRepr o
  | .conn c => connRepr c
  | .strs l => pyListReprStr l
  | .medias _ => ""

/-- `for v in self[k]` over a repeatable session value. -/
def svalElems : SVal → List String
  | .strs l => l
  | .medias ms => ms.map mediaRepr
  | .str s => s.data.map (fun c => String.mk [c])
  | .orig _ => []
  | .conn _ => []

/-- `SDP.__assemble_line`: `k=v` plus `\r\n`, with the same `a=` whitelist
filter. -/
def sdpAssemble (allowed : List String) (k : String) (v : String) : String :=
  if k = "a" ∧ allowed ≠ [] then
    if allowed.contains (attrName v) then k ++ "=" ++ v ++ "\r\n" else ""
  else k ++ "=" ++ v ++ "\r\n"

/-- `SDP.__repr__`: session fields in the fixed order `v o s i u e p c b t a m`
(of which `b`, `t`, `a`, `m` are repeatable). -/
def sdpRepr (sd : SDPObj) : String :=
  ['v', 'o', 's', 'i', 'u', 'e', 'p', 'c', 'b', 't', 'a', 'm'].foldl
    (fun acc k =>
      let ks := String.mk [k]
      match dictLookup sd.dict ks with
      | none => acc
      | some v =>
        if isMultipleKey ks = false then acc ++ sdpAssemble sd.allowed ks (svalStr v)
        else acc ++ String.join ((svalElems v).map (sdpAssemble sd.allowed ks)))
    ""

/-! ## Concrete inputs used by several theorems -/

/-- Two URI values whose serialized forms differ only in letter case. -/
def uriDemoA : URI := URI.mk (some "sip") (some "Alice") none (some "Atlanta.com") none [] []

def uriDemoB : URI := URI.mk (some "sip") (some "alice") none (some "atlanta.com") none [] []

/-- An SDP session with two `m=` sections and interleaved `a=` lines. -/
def sdpDemoText : String :=
  "v=0\r\no=alice 2890844526 2890844526 IN IP4 atlanta.com\r\ns=-\r\nt=0 0\r\n" ++
  "m=audio 49170 RTP/AVP 0\r\na=rtpmap:0 PCMU/8000\r\n" ++
  "m=video 51372 RTP/AVP 31\r\na=rtpmap:31 H261/90000\r\n"

/-- The object `sdpDemoText` parses to: each `a=` line in the attribute
dictionary of its own media section (the final `""` entry is the trailing
empty line, attached under the empty key, which serialization ignores). -/
def sdpDemoObj : SDPObj :=
  SDPObj.mk []
    [("v", .str "0"),
     ("o", .orig (Originator.mk "alice" 2890844526 2890844526 "IN" "IP4" "atlanta.com")),
     ("s", .str "-"),
     ("t", .strs ["0 0"]),
     ("m", .medias
       [MediaObj.mk "audio" 49170 "RTP/AVP" ["0"]
          [("a", .strs ["rtpmap:0 PCMU/8000"])] [],
        MediaObj.mk "video" 51372 "RTP/AVP" ["31"]
          [("a", .strs ["rtpmap:31 H261/90000"]), ("", .strs [""])] []])]

/-! ## Helper lemmas -/

theorem mkStr_data (s : String) : mkStr s.data = s := by
  cases s
  rfl

theorem digitChar_isDigit (k : Nat) : (digitChar k).isDigit = true := by
  unfold digitChar
  split <;> decide

theorem natDigitsGo_digits :
    ∀ (fuel n : Nat) (acc : List Char), (∀ c ∈ acc, c.isDigit = true) →
      ∀ c ∈ natDigitsGo fuel n acc, c.isDigit = true := by
  intro fuel
  induction fuel with
  | zero => intro n acc h c hc; exact h c hc
  | succ f ih =>
    intro n acc h c hc
    unfold natDigitsGo at hc
    by_cases hn : n < 10
    · rw [if_pos hn] at hc
      rcases List.mem_cons.mp hc with rfl | h2
      · exact digitChar_isDigit n
      · exact h c h2
    · rw [if_neg hn] at hc
      refine ih (n / 10) (digitChar (n % 10) :: acc) ?_ c hc
      intro d hd
      rcases List.mem_cons.mp hd with rfl | h2
      · exact digitChar_isDigit (n % 10)
      · exact h d h2

theorem pyFormatD_digits (n : Nat) : ∀ c ∈ (pyFormatD n).data, c.isDigit = true := by
  intro c hc
  exact natDigitsGo_digits (n + 1) n [] (by intro d hd; cases hd) c hc

theorem digit_not_ws (c : Char) (h : c.isDigit = true) : isPyWS c = false := by
  cases hw : isPyWS c
  · rfl
  · exfalso
    have hp : c = ' ' ∨ c = '\t' ∨ c = '\n' ∨ c = '\r' ∨ c = '\x0b' ∨ c = '\x0c' := by
      have := hw
      unfold isPyWS at this
      exact of_decide_eq_true this
    rcases hp with h1 | h1 | h1 | h1 | h1 | h1 <;> subst h1 <;> exact absurd h (by decide)

theorem digit_ne_semi (c : Char) (h : c.isDigit = true) : c ≠ ';' := by
  intro he
  subst he
  exact absurd h (by decide)

theorem dropWhile_eq_self_of_none (l : List Char) (p : Char → Bool)
    (h : ∀ c ∈ l, p c = false) : l.dropWhile p = l := by
  cases l with
  | nil => rfl
  | cons a t => simp [List.dropWhile, h a (by simp)]

theorem pyStrip_eq_self (s : String) (h : ∀ c ∈ s.data, isPyWS c = false) :
    pyStrip s = s := by
  unfold pyStrip
  rw [dropWhile_eq_self_of_none s.data isPyWS h]
  rw [dropWhile_eq_self_of_none s.data.reverse isPyWS
    (by intro c hc; exact h c (List.mem_reverse.mp hc))]
  rw [List.reverse_reverse]
  exact mkStr_data s

theorem pyPartition_of_absent (c : Char) :
    ∀ (l : List Char), (∀ a ∈ l, a ≠ c) → pyPartition l c = (l, [], []) := by
  intro l
  induction l with
  | nil => intro _; rfl
  | cons a t ih =>
    intro h
    unfold pyPartition
    rw [if_neg (h a (by simp))]
    rw [ih (by intro b hb; exact h b (by simp [hb]))]

theorem headerMk_CL (n : Nat) :
    headerMk (pyFormatD n) "Content-Length" =
      .ok (Header.mk (some "Content-Length") (.vs (pyFormatD n)) [] none none none) := by
  have hws : ∀ c ∈ (pyFormatD n).data, isPyWS c = false := by
    intro c hc; exact digit_not_ws c (pyFormatD_digits n c hc)
  have hstrip : pyStrip (pyFormatD n) = pyFormatD n := pyStrip_eq_self _ hws
  have hpart : pyPartition (pyFormatD n).data ';' = ((pyFormatD n).data, [], []) :=
    pyPartition_of_absent ';' _ (by
      intro a ha; exact digit_ne_semi a (pyFormatD_digits n a ha))
  unfold headerMk
  rw [if_neg (by decide : ¬ ("Content-Length" = ""))]
  simp only [hstrip]
  simp +decide [hpart, mkStr_data]

theorem lookup_map_replace {α : Type} (l : List (String × α)) (k : String) (v : α)
    (h : l.any (fun p => p.1 = k) = true) :
    dictLookup (l.map (fun p => if p.1 = k then (k, v) else p)) k = some v := by
  induction l with
  | nil => cases h
  | cons a t ih =>
    by_cases ha : a.1 = k
    · simp [dictLookup, List.find?, ha]
    · have ht : t.any (fun p => p.1 = k) = true := by
        simp only [List.any_cons, Bool.or_eq_true, decide_eq_true_eq] at h
        rcases h with h1 | h1
        · exact absurd h1 ha
        · exact h1
      simpa [dictLookup, List.find?, ha] using ih ht

theorem lookup_append_single {α : Type} (l : List (String × α)) (k : String) (v : α)
    (h : l.any (fun p => p.1 = k) = false) :
    dictLookup (l ++ [(k, v)]) k = some v := by
  induction l with
  | nil => simp [dictLookup, List.find?]
  | cons a t ih =>
    have ha : (decide (a.1 = k)) = false := by
      cases hd : decide (a.1 = k)
      · rfl
      · exfalso
        rw [List.any_cons, hd] at h
        simp at h
    have ht : t.any (fun p => p.1 = k) = false := by
      cases hd : t.any (fun p => p.1 = k)
      · rfl
      · exfalso
        rw [List.any_cons, hd] at h
        simp at h
    simpa [dictLookup, List.find?, of_decide_eq_false ha] using ih ht

theorem dictLookup_insert {α : Type} (l : List (String × α)) (k : String) (v : α) :
    dictLookup (dictInsert l k v) k = some v := by
  unfold dictInsert
  by_cases h : l.any (fun p => p.1 = k)
  · rw [if_pos h]
    exact lookup_map_replace l k v h
  · rw [if_neg h]
    exact lookup_append_single l k v (Bool.eq_false_iff.mpr h)

theorem any_map_replace {α : Type} (l : List (String × α)) (k : String) (v : α)
    (k' : String) :
    ((l.map (fun p => if p.1 = k then (k, v) else p)).any (fun p => p.1 = k')) =
      (l.any (fun p => p.1 = k')) := by
  induction l with
  | nil => rfl
  | cons a t ih =>
    simp only [List.map_cons, List.any_cons, ih]
    congr 1
    by_cases ha : a.1 = k
    · rw [if_pos ha]
      simp [ha]
    · rw [if_neg ha]

theorem dictInsert_any_ne {α : Type} (l : List (String × α)) (k : String) (v : α)
    (k' : String) (hk : k' ≠ k) :
    ((dictInsert l k v).any (fun p => p.1 = k')) = (l.any (fun p => p.1 = k')) := by
  unfold dictInsert
  by_cases h : l.any (fun p => p.1 = k)
  · rw [if_pos h]
    exact any_map_replace l k v k' 
  · rw [if_neg h]
    rw [List.any_append]
    simp [Ne.symm hk]

theorem msgSetBody_body (m : Msg) (v : Option String) : (msgSetBody m v).body = v := by
  unfold msgSetBody msgSet
  rfl

theorem msgContains_setBody (m : Msg) (v : Option String) (k : String)
    (hk : pyLower k ≠ "content-length") :
    msgContains (msgSetBody m v) k = msgContains m k := by
  unfold msgSetBody msgSet msgContains
  simp only []
  rw [show pyLower "Content-Length" = "content-length" from rfl]
  rw [dictInsert_any_ne m.headers "content-length" _ (pyLower k) hk]

theorem firstMissing_setBody (m : Msg) (v : Option String) :
    firstMissing (msgSetBody m v) = firstMissing m := by
  unfold firstMissing
  rw [msgContains_setBody m v "To" (by decide),
      msgContains_setBody m v "From" (by decide),
      msgContains_setBody m v "CSeq" (by decide),
      msgContains_setBody m v "Call-ID" (by decide)]

/-! ## Claim theorems -/

/-- C4: canonicalization is a total deterministic function on strings (it is
a Lean function, so totality and determinism are by construction), and
`canon "Via" = canon "via" = canon "VIA" = canon "v" = "Via"` and
`canon "call-id" = "Call-ID"`. -/
theorem claim4_canonicalize_total_and_values :
    canon "Via" = "Via" ∧ canon "via" = "Via" ∧ canon "VIA" = "Via" ∧
    canon "v" = "Via" ∧ canon "call-id" = "Call-ID" :=
  ⟨rfl, rfl, rfl, rfl, rfl⟩

/-- C5: the parameter tokenizer on `foo="a;b";bar` with delimiter `;` yields
exactly `foo ↦ a;b` (the quoted `;` is not a split point) and the bare flag
`bar` with absent value (encoded, as in the source, by the empty string). -/
theorem claim5_tokenizer_quoted_and_flag :
    parseParams "foo=\"a;b\";bar" ';' = [("foo", "a;b"), ("bar", "")] := rfl

/-- C7: parsing `tel:+1-212-555-0101` yields scheme `tel`, the full number as
the user, no host, and serializing the parsed URI reproduces the identical
input string. -/
theorem claim7_tel_uri_roundtrip :
    uriParse "tel:+1-212-555-0101" =
      .ok (URI.mk (some "tel") (some "+1-212-555-0101") none none none [] []) ∧
    uriRepr (URI.mk (some "tel") (some "+1-212-555-0101") none none none [] []) =
      "tel:+1-212-555-0101" :=
  ⟨rfl, rfl⟩

/-- C6: URI comparison and hashing are computed over the lower-cased
serialized string: any two URI values with the same lower-cased serialization
compare equal and hash equal, regardless of their fields. -/
theorem claim6_uri_cmp_hash_lowercased (a b : URI)
    (h : pyLower (uriRepr a) = pyLower (uriRepr b)) :
    uriCmp a b = 0 ∧ uriHash a = uriHash b := by
  constructor
  · unfold uriCmp
    rw [h]
    have hirr : ¬ (pyLower (uriRepr b) < pyLower (uriRepr b)) := lt_irrefl _
    simp [hirr]
  · unfold uriHash
    rw [h]

/-- Witness for C6: two field-wise distinct URIs whose serializations differ
only in letter case compare equal and hash equal. -/
theorem claim6_witness :
    uriDemoA ≠ uriDemoB ∧
    pyLower (uriRepr uriDemoA) = pyLower (uriRepr uriDemoB) ∧
    (uriCmp uriDemoA uriDemoB = 0 ∧ uriHash uriDemoA = uriHash uriDemoB) :=
  ⟨by decide, rfl, claim6_uri_cmp_hash_lowercased uriDemoA uriDemoB rfl⟩

/-- C8: the Via-derived effective contact URI for
`Via: SIP/2.0/UDP 192.0.2.1;rport=9999;received=192.0.2.5` is a `sip:` URI
with host `192.0.2.5` (the `received` override) and port `9999` (the `rport`
override); invoking the accessor on any header whose name is not `Via`
raises. -/
theorem claim8_via_uri :
    ((headerMk "SIP/2.0/UDP 192.0.2.1;rport=9999;received=192.0.2.5" "Via").bind viaUri) =
      .ok (URI.mk (some "sip") none none (some "192.0.2.5") (some 9999)
        [("transport", some "udp")] []) ∧
    (∀ h : Header, h.name ≠ some "Via" →
      viaUri h = .error "viaUri available only on Via header") := by
  constructor
  · rfl
  · intro h hn
    unfold viaUri
    rw [if_pos hn]

/-- Witness for C8: the accessor on a `To` header raises. -/
theorem claim8_witness :
    viaUri (Header.mk (some "To") (.vs "x") [] none none none) =
      .error "viaUri available only on Via header" :=
  claim8_via_uri.2 (Header.mk (some "To") (.vs "x") [] none none none) (by decide)

/-- C1 (code bug): a message with two `Call-ID` header lines parses
successfully with BOTH occurrences retained, in order, under the canonical
name — the later occurrence is appended, not dropped.  The singleton test
`name not in Message._single` compares the canonical (capitalized) name
against the lower-case table entries and never fires, contradicting the
source's own comment that only the first occurrence is processed. -/
theorem claim1_duplicate_singleton_not_dropped :
    (msgParse ("INVITE sip:bob@biloxi.com SIP/2.0\r\nTo: <sip:bob@biloxi.com>\r\n" ++
        "From: <sip:alice@atlanta.com>\r\nCSeq: 1 INVITE\r\nCall-ID: one\r\n" ++
        "Call-ID: two\r\n\r\n")).map
      (fun m => (msgHeaderCount m "Call-ID", msgHeaderValues m "Call-ID")) =
    .ok (2, ["one", "two"]) := rfl

/-- C2: whenever the assembled message reaches validation with a non-empty
body whose length differs from the declared Content-Length (0 when absent),
the parse fails with a content-length-mismatch error; in particular a 10-byte
body declared as `Content-Length: 11` fails with exactly that error. -/
theorem claim2_content_length_mismatch :
    (∀ (m : Msg) (body : List Char) (n : Int),
        declaredCL m = .ok n → body ≠ [] → n ≠ (body.length : Int) →
        msgValidate m body = .error (.contentLengthMismatch n body.length)) ∧
    msgParse ("INVITE sip:bob@biloxi.com SIP/2.0\r\nTo: <sip:bob@biloxi.com>\r\n" ++
        "From: <sip:alice@atlanta.com>\r\nCSeq: 1 INVITE\r\nCall-ID: abc\r\n" ++
        "Content-Length: 11\r\n\r\n0123456789") =
      .error (.contentLengthMismatch 11 10) := by
  constructor
  · intro m body n hdecl hbody hne
    have hm1 : (if body ≠ [] then msgSetBody m (some (mkStr body)) else m) =
        msgSetBody m (some (mkStr body)) := if_pos hbody
    simp only [msgValidate, hdecl, hm1]
    have hb : (msgSetBody m (some (mkStr body))).body ≠ none := by
      rw [msgSetBody_body]
      simp
    rw [if_pos ⟨hb, hne⟩]
  · rfl

/-- Witness for C2: a header-free message with a one-byte body and declared
length 0 fails with the mismatch error. -/
theorem claim2_witness :
    msgValidate (Msg.mk none none none none none none []) ['x'] =
      .error (.contentLengthMismatch 0 1) :=
  claim2_content_length_mismatch.1 (Msg.mk none none none none none none [])
    ['x'] 0 rfl (by decide) (by decide)

/-- C3: whenever validation passes the Content-Length check (empty body or
matching declared length, with no body previously set), a missing mandatory
header makes the parse fail naming the first missing one of
To, From, CSeq, Call-ID in that order; in particular a message missing only
`Call-ID` fails naming `Call-ID`. -/
theorem claim3_missing_mandatory_header :
    (∀ (m : Msg) (body : List Char) (n : Int) (h : String),
        m.body = none → declaredCL m = .ok n →
        (body = [] ∨ n = (body.length : Int)) → firstMissing m = some h →
        msgValidate m body = .error (.missingHeader h)) ∧
    msgParse ("INVITE sip:bob@biloxi.com SIP/2.0\r\nTo: <sip:bob@biloxi.com>\r\n" ++
        "From: <sip:alice@atlanta.com>\r\nCSeq: 1 INVITE\r\n\r\n") =
      .error (.missingHeader "Call-ID") := by
  constructor
  · intro m body n h hb hdecl hlen hmiss
    by_cases hbody : body = []
    · subst hbody
      have hm1 : (if ([] : List Char) ≠ [] then msgSetBody m (some (mkStr [])) else m) = m :=
        if_neg (by simp)
      simp only [msgValidate, hdecl, hm1]
      rw [if_neg (fun hc => hc.1 hb)]
      rw [hmiss]
    · have hn : n = (body.length : Int) := hlen.resolve_left hbody
      have hm1 : (if body ≠ [] then msgSetBody m (some (mkStr body)) else m) =
          msgSetBody m (some (mkStr body)) := if_pos hbody
      simp only [msgValidate, hdecl, hm1]
      rw [if_neg (fun hc => hc.2 hn)]
      rw [firstMissing_setBody, hmiss]
  · rfl

/-- Witness for C3: the empty message (no headers, no body) fails naming
`To`, the first mandatory header in order. -/
theorem claim3_witness :
    msgValidate (Msg.mk none none none none none none []) [] =
      .error (.missingHeader "To") :=
  claim3_missing_mandatory_header.1 (Msg.mk none none none none none none [])
    [] 0 "To" rfl rfl (Or.inl rfl) rfl

/-- C9: in SDP parsing every non-`m` line after an `m=` line is attached to
the most recently started media section, repeatable keys accumulate in order
and other keys overwrite.  The first two conjuncts show the two-media session
with interleaved `a=` lines: each `a=` line lands in its own media section's
dictionary and serialization reproduces the input byte-for-byte in the fixed
field order.  The third shows accumulation (`b`) and overwriting (`i`) inside
a media section. -/
theorem claim9_sdp_media_attachment_roundtrip :
    sdpParse sdpDemoText [] = .ok sdpDemoObj ∧
    sdpRepr sdpDemoObj = sdpDemoText ∧
    sdpParse "m=audio 49170 RTP/AVP 0\r\ni=first\r\ni=second\r\nb=AS:64\r\nb=CT:128" [] =
      .ok (SDPObj.mk []
        [("m", .medias
          [MediaObj.mk "audio" 49170 "RTP/AVP" ["0"]
            [("i", .str "second"), ("b", .strs ["AS:64", "CT:128"])] []])]) :=
  ⟨rfl, rfl, rfl⟩

/-- C10: assigning a body through the body setter always rewrites the
Content-Length header to the decimal length of the new body (0 for `none` or
the empty string) and stores the body itself. -/
theorem claim10_body_setter_content_length (m : Msg) (v : Option String) :
    msgCLString (msgSetBody m v) =
      some (pyFormatD (match v with
        | none => 0
        | some s => s.length)) ∧
    (msgSetBody m v).body = v := by
  constructor
  · have hlen : (match v with
        | none => 0
        | some s => if s = "" then 0 else s.length) =
        (match v with
        | none => 0
        | some s => s.length) := by
      cases v with
      | none => rfl
      | some s =>
        by_cases hs : s = ""
        · subst hs
          simp
        · simp [if_neg hs]
    unfold msgSetBody msgCLString msgLookup msgSet
    simp only [hlen, headerMk_CL]
    rw [show pyLower "Content-Length" = "content-length" from rfl]
    rw [dictLookup_insert]
  · exact msgSetBody_body m v

/-- Witness for C10 at a concrete message and body. -/
theorem claim10_witness :
    msgCLString (msgSetBody (Msg.mk none none none none none none []) (some "hello")) =
      some (pyFormatD 5) ∧
    (msgSetBody (Msg.mk none none none none none none []) (some "hello")).body =
      some "hello" :=
  claim10_body_setter_content_length (Msg.mk none none none none none none []) (some "hello")
